import Mathlib

/-!
Shallow embedding of the FlorAI workspace core (LuckyWheel spin selector and
the agent orchestration pipeline of `App.tsx` / `geminiService`), with
theorems settling the specification claims.

Angles are modelled as exact rationals.  JavaScript's `%` operator on the
non-negative operands used by the wheel coincides with the floor-based
remainder `jsMod` below.
-/

namespace FlorAI

/-- JavaScript remainder `x % y` for the non-negative operands used by the
wheel code (for `x ≥ 0`, `y > 0` the JS truncated remainder equals this
floor-based remainder). -/
def jsMod (x y : ℚ) : ℚ := x - y * ⌊x / y⌋

/-- `const sliceAngle = 360 / themes.length` (LuckyWheel.tsx). -/
def sliceAngle (n : ℕ) : ℚ := 360 / n

/-- `const totalRotation = rotation + (extraSpins * 360) + randomOffset`
(LuckyWheel.tsx, `spin`). -/
def spinCumulative (prev extraSpins offset : ℚ) : ℚ :=
  prev + extraSpins * 360 + offset

/-- The resolution step of `spin` (LuckyWheel.tsx):
`const actualRotation = totalRotation % 360;`
`const index = Math.floor(((360 - actualRotation) % 360) / sliceAngle)`. -/
def resolveIndex (total : ℚ) (n : ℕ) : ℤ :=
  ⌊jsMod (360 - jsMod total 360) 360 / sliceAngle n⌋

/-- The wheel state: `rotation` and `isSpinning` (LuckyWheel.tsx `useState`). -/
structure SpinState where
  rotation : ℚ
  isSpinning : Bool
deriving DecidableEq, Repr

/-- The synchronous part of `spin` (LuckyWheel.tsx): no-op while spinning,
otherwise set `isSpinning` and advance the cumulative rotation. -/
def spin (s : SpinState) (extraSpins offset : ℚ) : SpinState :=
  if s.isSpinning then s
  else { rotation := spinCumulative s.rotation extraSpins offset, isSpinning := true }

/-- The deferred `setTimeout` callback of `spin`: clears `isSpinning`,
leaving `rotation` unchanged. -/
def finishSpin (s : SpinState) : SpinState := { s with isSpinning := false }

/-- One user-visible event acting on the wheel state. -/
inductive SpinEvent where
  | start (extraSpins offset : ℚ)
  | finish
deriving DecidableEq, Repr

def stepSpin (s : SpinState) : SpinEvent → SpinState
  | .start e o => spin s e o
  | .finish => finishSpin s

def runSpins (s : SpinState) (evts : List SpinEvent) : SpinState :=
  evts.foldl stepSpin s

/-- The random draws actually produced by the code:
`extraSpins = 5 + Math.random() * 5` lies in `[5, 10)` and
`randomOffset = Math.random() * 360` lies in `[0, 360)`. -/
def validEvent : SpinEvent → Prop
  | .start e o => 5 ≤ e ∧ e < 10 ∧ 0 ≤ o ∧ o < 360
  | .finish => True

instance : DecidablePred validEvent := by
  intro e; cases e <;> simp [validEvent] <;> infer_instance

/-- Modelled from the spec: "Resolution computes `normalizedAngle =
newCumulative mod 360`, then `selectedIndex =
floor( ((360 - normalizedAngle) mod 360) / (360/N) )`", reading `mod 360`
on rationals as `360 * Int.fract (x / 360)`. -/
def specSelectedIndex (c : ℚ) (n : ℕ) : ℤ :=
  ⌊(360 * Int.fract ((360 - 360 * Int.fract (c / 360)) / 360)) / (360 / n)⌋

/-! Basic facts about `jsMod`. -/

theorem jsMod_eq_fract (x y : ℚ) (hy : y ≠ 0) :
    jsMod x y = y * Int.fract (x / y) := by
  unfold jsMod Int.fract
  field_simp

theorem jsMod_nonneg (x y : ℚ) (hy : 0 < y) : 0 ≤ jsMod x y := by
  rw [jsMod_eq_fract x y hy.ne']
  exact mul_nonneg hy.le (Int.fract_nonneg _)

theorem jsMod_lt (x y : ℚ) (hy : 0 < y) : jsMod x y < y := by
  rw [jsMod_eq_fract x y hy.ne']
  calc y * Int.fract (x / y) < y * 1 := by
        exact mul_lt_mul_of_pos_left (Int.fract_lt_one _) hy
    _ = y := mul_one y

theorem jsMod_eq_self (x y : ℚ) (h0 : 0 ≤ x) (hxy : x < y) : jsMod x y = x := by
  have hy : 0 < y := lt_of_le_of_lt h0 hxy
  have hfloor : ⌊x / y⌋ = 0 := by
    rw [Int.floor_eq_zero_iff]
    constructor
    · exact div_nonneg h0 hy.le
    · rw [div_lt_one hy]; exact hxy
  simp [jsMod, hfloor]

theorem jsMod_self (y : ℚ) (hy : 0 < y) : jsMod y y = 0 := by
  have : y / y = 1 := div_self hy.ne'
  simp [jsMod, this]

theorem jsMod_add_nat_mul (x y : ℚ) (hy : 0 < y) (k : ℕ) :
    jsMod (x + k * y) y = jsMod x y := by
  unfold jsMod
  have hdiv : (x + k * y) / y = x / y + (k : ℚ) := by
    field_simp
  rw [hdiv]
  have : ⌊x / y + (k : ℚ)⌋ = ⌊x / y⌋ + k := Int.floor_add_nat _ k
  rw [this]
  push_cast
  ring

/-! Basic facts about the resolution index. -/

theorem sliceAngle_pos (n : ℕ) (hn : 1 ≤ n) : 0 < sliceAngle n := by
  have h : (0 : ℚ) < n := by exact_mod_cast hn
  unfold sliceAngle
  positivity

theorem nat_mul_sliceAngle (n : ℕ) (hn : 1 ≤ n) : (n : ℚ) * sliceAngle n = 360 := by
  have h : (n : ℚ) ≠ 0 := by
    have : (0 : ℚ) < n := by exact_mod_cast hn
    exact this.ne'
  unfold sliceAngle
  field_simp

theorem resolveIndex_eq_floor (a : ℚ) (h0 : 0 < a) (h360 : a < 360) (n : ℕ) :
    resolveIndex a n = ⌊(360 - a) / sliceAngle n⌋ := by
  unfold resolveIndex
  rw [jsMod_eq_self a 360 h0.le h360,
    jsMod_eq_self (360 - a) 360 (by linarith) (by linarith)]

theorem resolveIndex_zero (n : ℕ) : resolveIndex 0 n = 0 := by
  unfold resolveIndex
  rw [jsMod_eq_self 0 360 le_rfl (by norm_num)]
  rw [show (360 : ℚ) - 0 = 360 by ring, jsMod_self 360 (by norm_num)]
  simp

theorem resolveIndex_jsMod (c : ℚ) (n : ℕ) :
    resolveIndex c n = resolveIndex (jsMod c 360) n := by
  unfold resolveIndex
  rw [jsMod_eq_self (jsMod c 360) 360 (jsMod_nonneg _ _ (by norm_num))
    (jsMod_lt _ _ (by norm_num))]

theorem resolveIndex_bounds_aux (n : ℕ) (hn : 1 ≤ n) (c : ℚ) :
    0 ≤ resolveIndex c n ∧ resolveIndex c n < n := by
  rw [resolveIndex_jsMod c n]
  have h0 : 0 ≤ jsMod c 360 := jsMod_nonneg _ _ (by norm_num)
  have h1 : jsMod c 360 < 360 := jsMod_lt _ _ (by norm_num)
  have hw := sliceAngle_pos n hn
  rcases eq_or_lt_of_le h0 with h | h
  · rw [← h, resolveIndex_zero]
    refine ⟨le_rfl, ?_⟩
    exact_mod_cast hn
  · rw [resolveIndex_eq_floor (jsMod c 360) h h1 n]
    constructor
    · apply Int.floor_nonneg.mpr
      apply div_nonneg (by linarith) hw.le
    · rw [Int.floor_lt]
      rw [div_lt_iff₀ hw]
      push_cast
      have hmul := nat_mul_sliceAngle n hn
      linarith

theorem resolveIndex_add_turns (c : ℚ) (n : ℕ) (k : ℕ) :
    resolveIndex (c + k * 360) n = resolveIndex c n := by
  unfold resolveIndex
  rw [jsMod_add_nat_mul c 360 (by norm_num) k]

theorem resolveIndex_interval (n : ℕ) (hn : 1 ≤ n) (i : ℕ) (hi : i < n)
    (a : ℚ) (h0 : 0 ≤ a) (h360 : a < 360) :
    resolveIndex a n = (i : ℤ) ↔
      (a = 0 ∧ i = 0) ∨
      (360 - ((i : ℚ) + 1) * sliceAngle n < a ∧ a ≤ 360 - (i : ℚ) * sliceAngle n) := by
  have hw := sliceAngle_pos n hn
  have hi1 : ((i : ℚ) + 1) ≤ n := by exact_mod_cast hi
  have hle : ((i : ℚ) + 1) * sliceAngle n ≤ 360 := by
    calc ((i : ℚ) + 1) * sliceAngle n ≤ (n : ℚ) * sliceAngle n :=
          mul_le_mul_of_nonneg_right hi1 hw.le
      _ = 360 := nat_mul_sliceAngle n hn
  rcases eq_or_lt_of_le h0 with h | h
  · rw [← h, resolveIndex_zero]
    constructor
    · intro hzi
      left
      exact ⟨rfl, by exact_mod_cast hzi.symm⟩
    · rintro (⟨-, hi0⟩ | ⟨h1, -⟩)
      · simp [hi0]
      · linarith
  · rw [resolveIndex_eq_floor a h h360 n, Int.floor_eq_iff]
    have hiff1 : ((i : ℤ) : ℚ) ≤ (360 - a) / sliceAngle n ↔
        (i : ℚ) * sliceAngle n ≤ 360 - a := by
      rw [le_div_iff₀ hw]
      push_cast
      rfl
    have hiff2 : (360 - a) / sliceAngle n < (i : ℤ) + 1 ↔
        360 - a < ((i : ℚ) + 1) * sliceAngle n := by
      rw [div_lt_iff₀ hw]
      push_cast
      rfl
    rw [hiff1, hiff2]
    constructor
    · rintro ⟨h1, h2⟩
      right
      exact ⟨by linarith, by linarith⟩
    · rintro (⟨ha0, -⟩ | ⟨h1, h2⟩)
      · exact absurd ha0 h.ne'
      · exact ⟨by linarith, by linarith⟩

/-! ## Claim C1 -/

/-- C1: the spin resolution is the pure deterministic function
`selectedIndex = floor(((360 - (cumulative mod 360)) mod 360) / (360/N))`
(`resolveIndex` is by construction a function of `(cumulative, N)` only, and
it coincides with the spec formula `specSelectedIndex`); in particular, for
N = 4, previous cumulative 0, extraFullTurns = 5 and offset = 90 the new
cumulative is 1890, the normalized angle is 90, and the selected index is 3. -/
theorem spin_resolution_formula :
    (∀ c : ℚ, 0 ≤ c → ∀ n : ℕ, 1 ≤ n → resolveIndex c n = specSelectedIndex c n) ∧
    spinCumulative 0 5 90 = 1890 ∧ jsMod 1890 360 = 90 ∧ resolveIndex 1890 4 = 3 := by
  refine ⟨?_, ?_, ?_, ?_⟩
  · intro c _ n _
    unfold resolveIndex specSelectedIndex sliceAngle
    rw [jsMod_eq_fract c 360 (by norm_num), jsMod_eq_fract _ 360 (by norm_num)]
  · norm_num [spinCumulative]
  · norm_num [jsMod]
  · norm_num [resolveIndex, jsMod, sliceAngle]

/-- Witness for C1 at `c = 1890`, `n = 4`. -/
theorem spin_resolution_formula_witness :
    (0 : ℚ) ≤ 1890 ∧ 1 ≤ 4 ∧ resolveIndex 1890 4 = specSelectedIndex 1890 4 :=
  ⟨by norm_num, by norm_num,
    spin_resolution_formula.1 1890 (by norm_num) 4 (by norm_num)⟩

/-! ## Claim C2 -/

/-- C2 counterexample: the code draws `extraSpins = 5 + Math.random() * 5`,
which can be the non-integer `11/2`; adding `extraSpins * 360` to the
rotation then does change the modular result and the selected index, so the
selection is not independent of the extra-turns draw. -/
theorem spin_fractional_turns_counterexample :
    (5 ≤ (11 / 2 : ℚ) ∧ (11 / 2 : ℚ) < 10) ∧
    spinCumulative 0 (11 / 2) 0 = 1980 ∧
    jsMod 1980 360 ≠ jsMod 0 360 ∧
    resolveIndex 1980 4 ≠ resolveIndex 0 4 := by
  refine ⟨⟨by norm_num, by norm_num⟩, by norm_num [spinCumulative], ?_, ?_⟩
  · norm_num [jsMod]
  · norm_num [resolveIndex, jsMod, sliceAngle]

/-- C2 (amended): the selected index is invariant under adding any integer
number of full turns `k * 360`, and for every `N ≥ 1` the set of normalized
angles in `[0, 360)` resolving to index `i` is (up to the single point 0,
which resolves to index 0) the half-open interval
`(360 - (i+1) * 360/N, 360 - i * 360/N]`, whose width is exactly `360/N` —
so a uniformly random offset selects every index with equal probability. -/
theorem spin_selection_uniform (n : ℕ) (hn : 1 ≤ n) :
    (∀ c : ℚ, 0 ≤ c → ∀ k : ℕ, resolveIndex (c + k * 360) n = resolveIndex c n) ∧
    (∀ i : ℕ, i < n →
      (360 - (i : ℚ) * sliceAngle n) - (360 - ((i : ℚ) + 1) * sliceAngle n) =
        sliceAngle n ∧
      ∀ a : ℚ, 0 ≤ a → a < 360 →
        (resolveIndex a n = (i : ℤ) ↔
          (a = 0 ∧ i = 0) ∨
          (360 - ((i : ℚ) + 1) * sliceAngle n < a ∧
            a ≤ 360 - (i : ℚ) * sliceAngle n))) := by
  constructor
  · intro c _ k
    exact resolveIndex_add_turns c n k
  · intro i hi
    refine ⟨by ring, ?_⟩
    intro a h0 h360
    exact resolveIndex_interval n hn i hi a h0 h360

/-- Witness for C2 (amended) at `n = 4`, `i = 3`, `a = 90`, `c = 90`, `k = 1`. -/
theorem spin_selection_uniform_witness :
    (1 ≤ 4 ∧ 3 < 4 ∧ (0 : ℚ) ≤ 90 ∧ (90 : ℚ) < 360) ∧
    resolveIndex (90 + 1 * 360) 4 = resolveIndex 90 4 ∧
    (360 - (3 : ℚ) * sliceAngle 4) - (360 - ((3 : ℚ) + 1) * sliceAngle 4) =
      sliceAngle 4 ∧
    (resolveIndex 90 4 = ((3 : ℕ) : ℤ) ↔
      ((90 : ℚ) = 0 ∧ (3 : ℕ) = 0) ∨
      (360 - ((3 : ℚ) + 1) * sliceAngle 4 < 90 ∧
        (90 : ℚ) ≤ 360 - (3 : ℚ) * sliceAngle 4)) := by
  have h := spin_selection_uniform 4 (by norm_num)
  have h2 := h.2 3 (by norm_num)
  exact ⟨⟨by norm_num, by norm_num, by norm_num, by norm_num⟩,
    h.1 90 (by norm_num) 1, by exact_mod_cast h2.1,
    h2.2 90 (by norm_num) (by norm_num)⟩

/-! ## Claim C8 -/

/-- C8: `spin` invoked while `isSpinning` is a no-op (state unchanged), and
the cumulative rotation is monotonically non-decreasing across any sequence
of spin/finish events whose random draws lie in the ranges the code
produces (never reset to zero). -/
theorem spin_state_invariant :
    (∀ (s : SpinState) (e o : ℚ), s.isSpinning = true → spin s e o = s) ∧
    (∀ (s : SpinState) (evts : List SpinEvent), (∀ ev ∈ evts, validEvent ev) →
      s.rotation ≤ (runSpins s evts).rotation) := by
  constructor
  · intro s e o h
    simp [spin, h]
  · intro s evts
    induction evts generalizing s with
    | nil => intro _; simp [runSpins]
    | cons ev rest ih =>
      intro hvalid
      have hstep : s.rotation ≤ (stepSpin s ev).rotation := by
        cases ev with
        | start e o =>
          have hv := hvalid _ (List.mem_cons_self _ _)
          obtain ⟨he, -, ho, -⟩ := hv
          by_cases hs : s.isSpinning
          · simp [stepSpin, spin, hs]
          · simp [stepSpin, spin, hs, spinCumulative]
            linarith
        | finish => simp [stepSpin, finishSpin]
      have hrest : (stepSpin s ev).rotation ≤ (runSpins (stepSpin s ev) rest).rotation :=
        ih (stepSpin s ev) (fun e he => hvalid e (List.mem_cons_of_mem _ he))
      calc s.rotation ≤ (stepSpin s ev).rotation := hstep
        _ ≤ (runSpins (stepSpin s ev) rest).rotation := hrest
        _ = (runSpins s (ev :: rest)).rotation := rfl

/-- Witness for C8: a re-entrant spin is the identity on a concrete spinning
state, and a concrete valid spin/finish sequence does not decrease the
rotation. -/
theorem spin_state_invariant_witness :
    (SpinState.mk 0 true).isSpinning = true ∧
    spin ⟨0, true⟩ 7 10 = ⟨0, true⟩ ∧
    validEvent (SpinEvent.start 5 90) ∧ validEvent SpinEvent.finish ∧
    (SpinState.mk 0 false).rotation ≤
      (runSpins ⟨0, false⟩ [SpinEvent.start 5 90, SpinEvent.finish]).rotation := by
  refine ⟨rfl, spin_state_invariant.1 ⟨0, true⟩ 7 10 rfl, ?_, ?_, ?_⟩
  · exact ⟨by norm_num, by norm_num, by norm_num, by norm_num⟩
  · trivial
  · apply spin_state_invariant.2 ⟨0, false⟩
    intro ev hev
    fin_cases hev
    · exact ⟨by norm_num, by norm_num, by norm_num, by norm_num⟩
    · trivial

/-! ## Claim C9 -/

/-- C9: for every `N ≥ 1` the segment width `360/N` is positive (no division
by zero), and for every non-negative cumulative rotation the resolved index
lies in `[0, N)`, so the outcome lookup is in bounds; for `N = 1` the index
is always 0. -/
theorem spin_index_bounds (n : ℕ) (hn : 1 ≤ n) :
    0 < sliceAngle n ∧
    ∀ c : ℚ, 0 ≤ c →
      (0 ≤ resolveIndex c n ∧ resolveIndex c n < n) ∧
      (n = 1 → resolveIndex c n = 0) := by
  refine ⟨sliceAngle_pos n hn, ?_⟩
  intro c _
  have hb := resolveIndex_bounds_aux n hn c
  refine ⟨hb, ?_⟩
  intro h1
  subst h1
  have h0 := hb.1
  have h2 := hb.2
  omega

/-- Witness for C9 at `n = 1`, `c = 90`. -/
theorem spin_index_bounds_witness :
    (1 ≤ 1 ∧ (0 : ℚ) ≤ 90) ∧
    0 < sliceAngle 1 ∧
    (0 ≤ resolveIndex 90 1 ∧ resolveIndex 90 1 < 1) ∧
    (1 = 1 → resolveIndex 90 1 = 0) := by
  have h := spin_index_bounds 1 (by norm_num)
  exact ⟨⟨by norm_num, by norm_num⟩, h.1, h.2 90 (by norm_num)⟩

/-! ## The agent orchestration pipeline (App.tsx, services/geminiService.ts) -/

/-- `contextType: 'doc1' | 'doc2' | 'both'` (types.ts `AgentConfig`). -/
inductive ContextType where
  | doc1
  | doc2
  | both
deriving DecidableEq, Repr

/-- The `AgentConfig` record (types.ts).  `output?: string` is modelled as
`Option String` (`none` = the field is absent). -/
structure AgentConfig where
  id : Nat
  name : String
  prompt : String
  model : String
  maxTokens : Nat
  temperature : ℚ
  contextType : ContextType
  output : Option String
  isLoading : Bool
deriving DecidableEq, Repr

/-- One `ai.models.generateContent` request as issued by the service layer
(geminiService.ts): model name, combined contents string, `maxOutputTokens`,
and the thinking budget (0 = no `thinkingConfig`). -/
structure GenRequest where
  model : String
  contents : String
  maxOutputTokens : Nat
  thinkingBudget : Nat
deriving DecidableEq, Repr

/-- The opaque remote model: a request either fails with an error message or
succeeds with an optional `response.text` (which may be absent). -/
def Remote : Type := GenRequest → Except String (Option String)

/-- The request built by `runGeminiAgent` (geminiService.ts): the
`gemini-2.5-flash-thinking` alias is rewritten to `gemini-2.5-flash` with a
thinking budget of 1024, and the contents combine context and prompt. -/
def geminiRequest (prompt modelId : String) (maxTokens : Nat) (context : String) :
    GenRequest :=
  if modelId = "gemini-2.5-flash-thinking" then
    { model := "gemini-2.5-flash"
      contents := "Context:\n" ++ context ++ "\n\nTask:\n" ++ prompt
      maxOutputTokens := maxTokens
      thinkingBudget := 1024 }
  else
    { model := modelId
      contents := "Context:\n" ++ context ++ "\n\nTask:\n" ++ prompt
      maxOutputTokens := maxTokens
      thinkingBudget := 0 }

/-- `runGeminiAgent` (geminiService.ts): issues the request and returns
`response.text || "No output generated."` — JS `||` replaces both an absent
and an empty `text` by the placeholder. -/
def runGeminiAgent (remote : Remote) (prompt modelId : String) (maxTokens : Nat)
    (context : String) : Except String String :=
  match remote (geminiRequest prompt modelId maxTokens context) with
  | .error e => .error e
  | .ok none => .ok "No output generated."
  | .ok (some s) => .ok (if s = "" then "No output generated." else s)

/-- The workspace state relevant to the analysis tab (App.tsx `useState`):
the two shared document buffers, the agent list, and the UI error banner. -/
structure AppState where
  doc1 : String
  doc2 : String
  agents : List AgentConfig
  error : Option String
deriving DecidableEq, Repr

/-- Context resolution in `handleRunAgent` (App.tsx lines 154–157). -/
def resolveContext (ct : ContextType) (d1 d2 : String) : String :=
  match ct with
  | .doc1 => d1
  | .doc2 => d2
  | .both => "Document 1:\n" ++ d1 ++ "\n\nDocument 2:\n" ++ d2

/-- The first `setAgents` updater of `handleRunAgent` (App.tsx line 150):
`a.id === id ? { ...a, isLoading: true, output: '' } : a`. -/
def startAgent (id : Nat) (a : AgentConfig) : AgentConfig :=
  if a.id = id then { a with isLoading := true, output := some "" } else a

/-- The success updater of `handleRunAgent` (App.tsx line 167):
`a.id === id ? { ...a, isLoading: false, output: result } : a`. -/
def succeedAgent (id : Nat) (result : String) (a : AgentConfig) : AgentConfig :=
  if a.id = id then { a with isLoading := false, output := some result } else a

/-- The failure updater of `handleRunAgent` (App.tsx line 170):
`a.id === id ? { ...a, isLoading: false } : a` (the output is not touched
again, so it keeps the `''` set at the start). -/
def failAgent (id : Nat) (a : AgentConfig) : AgentConfig :=
  if a.id = id then { a with isLoading := false } else a

/-- `handleRunAgent` (App.tsx lines 146–172), instrumented with the list of
remote requests it issues.  Looks the agent up by id (no-op when absent),
applies `startAgent` and clears the error banner, resolves the context,
issues exactly one remote call, and applies either `succeedAgent` (success)
or `failAgent` plus the error message (failure). -/
def handleRunAgent (remote : Remote) (s : AppState) (id : Nat) :
    AppState × List GenRequest :=
  match s.agents.find? (fun a => a.id = id) with
  | none => (s, [])
  | some agent =>
    match runGeminiAgent remote agent.prompt agent.model agent.maxTokens
        (resolveContext agent.contextType s.doc1 s.doc2) with
    | .ok result =>
      ({ s with
          agents := (s.agents.map (startAgent id)).map (succeedAgent id result)
          error := none },
        [geminiRequest agent.prompt agent.model agent.maxTokens
          (resolveContext agent.contextType s.doc1 s.doc2)])
    | .error e =>
      ({ s with
          agents := (s.agents.map (startAgent id)).map (failAgent id)
          error := some e },
        [geminiRequest agent.prompt agent.model agent.maxTokens
          (resolveContext agent.contextType s.doc1 s.doc2)])

/-- The body of `handleRunAllAgents` (App.tsx lines 174–178): run the given
ids in order, awaiting each `handleRunAgent` before starting the next,
threading the state and concatenating the request logs. -/
def runAgentIds (remote : Remote) : List Nat → AppState → AppState × List GenRequest
  | [], s => (s, [])
  | id :: rest, s =>
    let r1 := handleRunAgent remote s id
    let r2 := runAgentIds remote rest r1.1
    (r2.1, r1.2 ++ r2.2)

/-- `handleRunAllAgents` (App.tsx): `for (const agent of agents) await
handleRunAgent(agent.id)` over the agent list captured at invocation. -/
def handleRunAllAgents (remote : Remote) (s : AppState) :
    AppState × List GenRequest :=
  runAgentIds remote (s.agents.map (fun a => a.id)) s

/-- The YAML payload shapes distinguished by `uploadAgents` (App.tsx lines
191–209): a top-level sequence of agent records, or any non-sequence shape
(mapping or scalar). -/
inductive ParsedYaml where
  | sequence (items : List AgentConfig)
  | mapping
  | scalar (s : String)
deriving DecidableEq, Repr

/-- `uploadAgents` (App.tsx lines 191–209): a parse error surfaces the
parser's message; a top-level sequence replaces the whole agent list and
clears the error; any other shape reports the structural-format error and
leaves the agent list unchanged. -/
def uploadAgents (s : AppState) (parsed : Except String ParsedYaml) : AppState :=
  match parsed with
  | .error msg => { s with error := some ("Failed to parse YAML: " ++ msg) }
  | .ok (.sequence items) => { s with agents := items, error := none }
  | .ok _ => { s with error := some "Invalid YAML format: Expected a list of agents." }

/-! Concrete fixtures used by witnesses and counterexamples. -/

/-- A remote model that always succeeds with the text `"out"`. -/
def remoteOk : Remote := fun _ => .ok (some "out")

/-- A remote model that succeeds but returns an empty `text`. -/
def remoteEmpty : Remote := fun _ => .ok (some "")

/-- A remote model that always fails. -/
def remoteFail : Remote := fun _ => .error "boom"

/-- A remote model that fails exactly on the request produced for prompt
`"pb"` against document 1 `"d1"`, and succeeds with `"out"` otherwise. -/
def remoteFailB : Remote := fun req =>
  if req.contents = "Context:\nd1\n\nTask:\npb" then .error "boom"
  else .ok (some "out")

def agentA : AgentConfig :=
  { id := 1, name := "A", prompt := "pa", model := "gemini-2.5-flash"
    maxTokens := 500, temperature := 7/10, contextType := .doc1
    output := none, isLoading := false }

def agentB : AgentConfig :=
  { id := 2, name := "B", prompt := "pb", model := "gemini-2.5-flash"
    maxTokens := 500, temperature := 7/10, contextType := .doc1
    output := none, isLoading := false }

def agentC : AgentConfig :=
  { id := 3, name := "C", prompt := "pc", model := "gemini-2.5-flash"
    maxTokens := 500, temperature := 7/10, contextType := .doc1
    output := none, isLoading := false }

/-- A three-task workspace whose second task's remote call `remoteFailB`
fails. -/
def stateABC : AppState :=
  { doc1 := "d1", doc2 := "d2", agents := [agentA, agentB, agentC], error := none }

/-- `agentA` with a stale output from an earlier run. -/
def agentAOld : AgentConfig := { agentA with output := some "old" }

/-- A one-task workspace whose task has a stale output. -/
def stateOld : AppState :=
  { doc1 := "d1", doc2 := "d2", agents := [agentAOld], error := none }

/-- `agentA` configured with the `gemini-2.5-flash-thinking` alias model. -/
def agentT : AgentConfig := { agentA with model := "gemini-2.5-flash-thinking" }

/-- A one-task workspace whose task uses the thinking-alias model. -/
def stateT : AppState :=
  { doc1 := "d1", doc2 := "d2", agents := [agentT], error := none }

/-! Helper lemmas about the pipeline. -/

/-- The request-relevant fields of an agent record (those read by
`handleRunAgent` to build the remote request), plus its identity. -/
def agentCore (a : AgentConfig) : Nat × String × String × Nat × ContextType :=
  (a.id, a.prompt, a.model, a.maxTokens, a.contextType)

/-- The remote request `handleRunAgent` issues for a given agent against
the given documents. -/
def requestOf (d1 d2 : String) (a : AgentConfig) : GenRequest :=
  geminiRequest a.prompt a.model a.maxTokens (resolveContext a.contextType d1 d2)

theorem agentCore_startAgent (id : Nat) (a : AgentConfig) :
    agentCore (startAgent id a) = agentCore a := by
  by_cases h : a.id = id <;> simp [startAgent, agentCore, h]

theorem agentCore_succeedAgent (id : Nat) (r : String) (a : AgentConfig) :
    agentCore (succeedAgent id r a) = agentCore a := by
  by_cases h : a.id = id <;> simp [succeedAgent, agentCore, h]

theorem agentCore_failAgent (id : Nat) (a : AgentConfig) :
    agentCore (failAgent id a) = agentCore a := by
  by_cases h : a.id = id <;> simp [failAgent, agentCore, h]

theorem requestOf_core_eq (d1 d2 : String) (a b : AgentConfig)
    (h : agentCore a = agentCore b) : requestOf d1 d2 a = requestOf d1 d2 b := by
  simp only [agentCore, Prod.mk.injEq] at h
  obtain ⟨-, h2, h3, h4, h5⟩ := h
  simp only [requestOf, h2, h3, h4, h5]

theorem handleRunAgent_error (remote : Remote) (s : AppState) (id : Nat)
    (a : AgentConfig) (e : String)
    (hfind : s.agents.find? (fun x => x.id = id) = some a)
    (hrun : runGeminiAgent remote a.prompt a.model a.maxTokens
      (resolveContext a.contextType s.doc1 s.doc2) = .error e) :
    handleRunAgent remote s id =
      ({ s with
          agents := (s.agents.map (startAgent id)).map (failAgent id)
          error := some e },
        [requestOf s.doc1 s.doc2 a]) := by
  simp only [handleRunAgent, hfind, hrun, requestOf]

theorem handleRunAgent_ok (remote : Remote) (s : AppState) (id : Nat)
    (a : AgentConfig) (r : String)
    (hfind : s.agents.find? (fun x => x.id = id) = some a)
    (hrun : runGeminiAgent remote a.prompt a.model a.maxTokens
      (resolveContext a.contextType s.doc1 s.doc2) = .ok r) :
    handleRunAgent remote s id =
      ({ s with
          agents := (s.agents.map (startAgent id)).map (succeedAgent id r)
          error := none },
        [requestOf s.doc1 s.doc2 a]) := by
  simp only [handleRunAgent, hfind, hrun, requestOf]

theorem handleRunAgent_log (remote : Remote) (s : AppState) (id : Nat)
    (a : AgentConfig)
    (hfind : s.agents.find? (fun x => x.id = id) = some a) :
    (handleRunAgent remote s id).2 = [requestOf s.doc1 s.doc2 a] := by
  cases hrun : runGeminiAgent remote a.prompt a.model a.maxTokens
      (resolveContext a.contextType s.doc1 s.doc2) with
  | ok r => rw [handleRunAgent_ok remote s id a r hfind hrun]
  | error e => rw [handleRunAgent_error remote s id a e hfind hrun]

theorem handleRunAgent_core (remote : Remote) (s : AppState) (id : Nat) :
    (handleRunAgent remote s id).1.doc1 = s.doc1 ∧
    (handleRunAgent remote s id).1.doc2 = s.doc2 ∧
    (handleRunAgent remote s id).1.agents.map agentCore = s.agents.map agentCore := by
  cases hfind : s.agents.find? (fun x => x.id = id) with
  | none => simp [handleRunAgent, hfind]
  | some a =>
    cases hrun : runGeminiAgent remote a.prompt a.model a.maxTokens
        (resolveContext a.contextType s.doc1 s.doc2) with
    | ok r =>
      rw [handleRunAgent_ok remote s id a r hfind hrun]
      refine ⟨rfl, rfl, ?_⟩
      simp [List.map_map, Function.comp_def, agentCore_succeedAgent, agentCore_startAgent]
    | error e =>
      rw [handleRunAgent_error remote s id a e hfind hrun]
      refine ⟨rfl, rfl, ?_⟩
      simp [List.map_map, Function.comp_def, agentCore_failAgent, agentCore_startAgent]

theorem find?_map_core_eq (l l' : List AgentConfig)
    (h : l.map agentCore = l'.map agentCore) (id : Nat) :
    (l.find? (fun x => x.id = id)).map agentCore =
      (l'.find? (fun x => x.id = id)).map agentCore := by
  induction l generalizing l' with
  | nil =>
    have : l' = [] := by
      cases l' with
      | nil => rfl
      | cons b t => simp at h
    subst this
    rfl
  | cons a t ih =>
    cases l' with
    | nil => simp at h
    | cons b t' =>
      simp only [List.map_cons, List.cons.injEq] at h
      obtain ⟨h1, h2⟩ := h
      have hid : a.id = b.id := by
        have := congrArg Prod.fst h1
        simpa [agentCore] using this
      by_cases hida : a.id = id
      · rw [List.find?_cons_of_pos _ (by simp [hida]),
          List.find?_cons_of_pos _ (by simp [← hid, hida])]
        simp [h1]
      · rw [List.find?_cons_of_neg _ (by simp [hida]),
          List.find?_cons_of_neg _ (by simp [← hid, hida])]
        exact ih t' h2

theorem find?_self_of_nodup (l : List AgentConfig)
    (h : (l.map (fun a => a.id)).Nodup) (a : AgentConfig) (ha : a ∈ l) :
    l.find? (fun x => x.id = a.id) = some a := by
  induction l with
  | nil => simp at ha
  | cons b t ih =>
    simp only [List.map_cons, List.nodup_cons] at h
    rcases List.mem_cons.mp ha with rfl | hat
    · rw [List.find?_cons_of_pos _ (by simp)]
    · have hbid : b.id ≠ a.id := by
        intro hcontra
        exact h.1 (hcontra ▸ List.mem_map_of_mem (fun x => x.id) hat)
      rw [List.find?_cons_of_neg _ (by simp [hbid])]
      exact ih h.2 hat

theorem runAgentIds_log_aux (remote : Remote) (l : List AgentConfig)
    (s : AppState)
    (hfind : ∀ a ∈ l, ∃ b, s.agents.find? (fun x => x.id = a.id) = some b ∧
      agentCore b = agentCore a) :
    (runAgentIds remote (l.map (fun a => a.id)) s).2 =
      l.map (requestOf s.doc1 s.doc2) := by
  induction l generalizing s with
  | nil => rfl
  | cons a t ih =>
    obtain ⟨b, hb, hcore⟩ := hfind a (List.mem_cons_self a t)
    have hlog := handleRunAgent_log remote s a.id b hb
    have hpres := handleRunAgent_core remote s a.id
    have hrest : (runAgentIds remote (t.map (fun x => x.id))
        (handleRunAgent remote s a.id).1).2 =
        t.map (requestOf s.doc1 s.doc2) := by
      rw [← hpres.1, ← hpres.2.1]
      apply ih
      intro x hx
      obtain ⟨c, hc, hccore⟩ := hfind x (List.mem_cons_of_mem a hx)
      have hmaps := find?_map_core_eq (handleRunAgent remote s a.id).1.agents
        s.agents hpres.2.2 x.id
      rw [hc] at hmaps
      cases hfc : (handleRunAgent remote s a.id).1.agents.find?
          (fun y => y.id = x.id) with
      | none => rw [hfc] at hmaps; simp at hmaps
      | some c' =>
        rw [hfc] at hmaps
        simp at hmaps
        exact ⟨c', rfl, by rw [hmaps, hccore]⟩
    simp only [List.map_cons, runAgentIds]
    rw [hlog, hrest, requestOf_core_eq s.doc1 s.doc2 b a hcore]
    rfl

/-! ## Claim C3 -/

/-- C3 counterexample: a failing remote call does not leave the task's
`lastOutput` equal to its value before the execution request — the stale
output `"old"` is cleared to `''` at the start of the run and stays `''`
after the failure. -/
theorem execute_one_failure_counterexample :
    agentAOld.output = some "old" ∧
    (handleRunAgent remoteFail stateOld 1).1.agents.map (fun a => a.output) =
      [some ""] ∧
    (some "" : Option String) ≠ some "old" := by decide

/-- C3 (amended): on a failing remote call, `executeOne` leaves the task's
`lastOutput` as the empty string it was cleared to when the run started (the
pre-request value is lost), ends with `isRunning = false`, surfaces the
error message to the caller, and issues exactly one remote invocation (no
retry). -/
theorem execute_one_failure (remote : Remote) (s : AppState) (id : Nat)
    (a : AgentConfig) (e : String)
    (hfind : s.agents.find? (fun x => x.id = id) = some a)
    (hrun : runGeminiAgent remote a.prompt a.model a.maxTokens
      (resolveContext a.contextType s.doc1 s.doc2) = .error e) :
    (handleRunAgent remote s id).1.error = some e ∧
    (handleRunAgent remote s id).2 = [requestOf s.doc1 s.doc2 a] ∧
    ∀ x ∈ (handleRunAgent remote s id).1.agents,
      x.id = id → x.isLoading = false ∧ x.output = some "" := by
  rw [handleRunAgent_error remote s id a e hfind hrun]
  refine ⟨rfl, rfl, ?_⟩
  intro x hx hxid
  simp only [List.map_map, List.mem_map, Function.comp_def] at hx
  obtain ⟨b, -, rfl⟩ := hx
  by_cases hbid : b.id = id
  · simp [startAgent, failAgent, hbid]
  · simp only [startAgent, failAgent, if_neg hbid] at hxid
    exact absurd hxid hbid

/-- Witness for C3 (amended) on the concrete one-task workspace `stateOld`
with the always-failing remote. -/
theorem execute_one_failure_witness :
    stateOld.agents.find? (fun x => x.id = 1) = some agentAOld ∧
    runGeminiAgent remoteFail agentAOld.prompt agentAOld.model agentAOld.maxTokens
      (resolveContext agentAOld.contextType stateOld.doc1 stateOld.doc2) =
      .error "boom" ∧
    (handleRunAgent remoteFail stateOld 1).1.error = some "boom" ∧
    (handleRunAgent remoteFail stateOld 1).2 =
      [requestOf stateOld.doc1 stateOld.doc2 agentAOld] := by
  have h := execute_one_failure remoteFail stateOld 1 agentAOld "boom" rfl rfl
  exact ⟨rfl, rfl, h.1, h.2.1⟩

/-! ## Claim C4 -/

/-- C4 counterexample: in the batch `[A, B, C]` with B's remote call
failing, B's `lastOutput` does not stay unset — it ends as `some ""` (the
empty string written when B's run started), not `none`. -/
theorem execute_all_counterexample :
    (handleRunAllAgents remoteFailB stateABC).1.agents.map (fun a => a.output) =
      [some "out", some "", some "out"] ∧
    (handleRunAllAgents remoteFailB stateABC).1.agents.map (fun a => a.output) ≠
      [some "out", none, some "out"] := by decide

/-- C4 (amended): `executeAll` iterates the task list in stored order,
issuing exactly one remote call per task — sequentially, each awaited
before the next, so the request log is exactly the per-task requests in
list order — and a failure of one task does not abort the batch: for the
concrete tasks `[A, B, C]` with B's remote call failing, A and C still
receive outputs, B's output ends as the empty string cleared at the start
of its run (not its pre-batch absent value), and `isRunning` ends false for
all three. -/
theorem execute_all_sequential :
    (∀ (remote : Remote) (s : AppState),
      (s.agents.map (fun a => a.id)).Nodup →
      (handleRunAllAgents remote s).2 = s.agents.map (requestOf s.doc1 s.doc2)) ∧
    (handleRunAllAgents remoteFailB stateABC).1.agents.map (fun a => a.output) =
      [some "out", some "", some "out"] ∧
    (handleRunAllAgents remoteFailB stateABC).1.agents.map (fun a => a.isLoading) =
      [false, false, false] ∧
    (handleRunAllAgents remoteFailB stateABC).2.length = 3 := by
  refine ⟨?_, by decide, by decide, by decide⟩
  intro remote s hnodup
  unfold handleRunAllAgents
  apply runAgentIds_log_aux
  intro a ha
  exact ⟨a, find?_self_of_nodup s.agents hnodup a ha, rfl⟩

/-- Witness for C4 (amended) on `stateABC` with the all-succeeding remote. -/
theorem execute_all_sequential_witness :
    (stateABC.agents.map (fun a => a.id)).Nodup ∧
    (handleRunAllAgents remoteOk stateABC).2 =
      stateABC.agents.map (requestOf stateABC.doc1 stateABC.doc2) :=
  ⟨by decide, execute_all_sequential.1 remoteOk stateABC (by decide)⟩

/-! ## Claim C5 -/

/-- C5: `importTasks` given a payload whose top level is not a sequence (a
mapping or a scalar) reports the structural-format error and leaves the
existing task list unchanged; given a well-formed sequence it replaces the
entire task list with the imported records exactly as given. -/
theorem import_tasks_replace :
    (∀ s : AppState,
      (uploadAgents s (.ok ParsedYaml.mapping)).agents = s.agents ∧
      (uploadAgents s (.ok ParsedYaml.mapping)).error =
        some "Invalid YAML format: Expected a list of agents." ∧
      ∀ str : String,
        (uploadAgents s (.ok (ParsedYaml.scalar str))).agents = s.agents) ∧
    ∀ (s : AppState) (items : List AgentConfig),
      (uploadAgents s (.ok (ParsedYaml.sequence items))).agents = items :=
  ⟨fun _ => ⟨rfl, rfl, fun _ => rfl⟩, fun _ _ => rfl⟩

/-! ## Claim C6 -/

/-- C6: the context string is resolved from the context selector exactly
as: `doc1` yields document 1 verbatim, `doc2` yields document 2 verbatim,
and `both` yields the labeled concatenation; with `doc1 = "A"`,
`doc2 = "B"` the `both` context is the labeled string containing both and
the `doc1` context is exactly `"A"`. -/
theorem context_resolution :
    (∀ d1 d2 : String,
      resolveContext .doc1 d1 d2 = d1 ∧
      resolveContext .doc2 d1 d2 = d2 ∧
      resolveContext .both d1 d2 =
        "Document 1:\n" ++ d1 ++ "\n\nDocument 2:\n" ++ d2) ∧
    resolveContext .both "A" "B" = "Document 1:\nA\n\nDocument 2:\nB" ∧
    resolveContext .doc1 "A" "B" = "A" :=
  ⟨fun _ _ => ⟨rfl, rfl, rfl⟩, by decide, rfl⟩

/-! ## Claim C7 -/

/-- C7 counterexample: for a task whose model is the selectable
`gemini-2.5-flash-thinking`, the single remote invocation does not carry
the task's `modelId` — the service substitutes `gemini-2.5-flash`. -/
theorem remote_invocation_counterexample :
    agentT.model = "gemini-2.5-flash-thinking" ∧
    (handleRunAgent remoteOk stateT 1).2.map (fun r => r.model) =
      ["gemini-2.5-flash"] ∧
    (handleRunAgent remoteOk stateT 1).2.map (fun r => r.model) ≠
      [agentT.model] := by decide

/-- C7 (amended): for every found task, `executeOne` issues exactly one
remote invocation; it carries the task's `maxOutputTokens`, and its
contents carry the resolved context and the task's prompt; its model is the
task's `modelId` except for the `gemini-2.5-flash-thinking` alias, which is
sent as `gemini-2.5-flash` with a thinking budget of 1024. -/
theorem remote_invocation_fields (remote : Remote) (s : AppState) (id : Nat)
    (a : AgentConfig)
    (hfind : s.agents.find? (fun x => x.id = id) = some a) :
    (handleRunAgent remote s id).2 =
      [geminiRequest a.prompt a.model a.maxTokens
        (resolveContext a.contextType s.doc1 s.doc2)] ∧
    ∀ req ∈ (handleRunAgent remote s id).2,
      req.maxOutputTokens = a.maxTokens ∧
      req.contents = "Context:\n" ++ resolveContext a.contextType s.doc1 s.doc2
        ++ "\n\nTask:\n" ++ a.prompt ∧
      req.model = (if a.model = "gemini-2.5-flash-thinking"
        then "gemini-2.5-flash" else a.model) ∧
      req.thinkingBudget =
        (if a.model = "gemini-2.5-flash-thinking" then 1024 else 0) := by
  have hlog : (handleRunAgent remote s id).2 = [requestOf s.doc1 s.doc2 a] :=
    handleRunAgent_log remote s id a hfind
  refine ⟨hlog, ?_⟩
  intro req hreq
  rw [hlog, List.mem_singleton] at hreq
  subst hreq
  unfold requestOf geminiRequest
  by_cases hm : a.model = "gemini-2.5-flash-thinking" <;> simp [hm]

/-- Witness for C7 (amended) on the concrete thinking-alias workspace. -/
theorem remote_invocation_fields_witness :
    stateT.agents.find? (fun x => x.id = 1) = some agentT ∧
    (handleRunAgent remoteOk stateT 1).2 =
      [geminiRequest agentT.prompt agentT.model agentT.maxTokens
        (resolveContext agentT.contextType stateT.doc1 stateT.doc2)] :=
  ⟨rfl, (remote_invocation_fields remoteOk stateT 1 agentT rfl).1⟩

/-! ## Claim C10 -/

/-- C10: for every successful remote call, the string stored as the task's
output is non-empty; when the remote model resolves successfully but with
an absent or empty `text`, the placeholder `"No output generated."` is
returned and stored as the task's output. -/
theorem success_output_nonempty (remote : Remote) (s : AppState) (id : Nat)
    (a : AgentConfig) (out : String)
    (hfind : s.agents.find? (fun x => x.id = id) = some a)
    (hok : runGeminiAgent remote a.prompt a.model a.maxTokens
      (resolveContext a.contextType s.doc1 s.doc2) = .ok out) :
    out ≠ "" ∧
    ((remote (geminiRequest a.prompt a.model a.maxTokens
        (resolveContext a.contextType s.doc1 s.doc2)) = .ok none ∨
      remote (geminiRequest a.prompt a.model a.maxTokens
        (resolveContext a.contextType s.doc1 s.doc2)) = .ok (some "")) →
      out = "No output generated.") ∧
    ∀ x ∈ (handleRunAgent remote s id).1.agents,
      x.id = id → x.isLoading = false ∧ x.output = some out := by
  have hstore : ∀ x ∈ (handleRunAgent remote s id).1.agents,
      x.id = id → x.isLoading = false ∧ x.output = some out := by
    rw [handleRunAgent_ok remote s id a out hfind hok]
    intro x hx hxid
    simp only [List.map_map, List.mem_map, Function.comp_def] at hx
    obtain ⟨b, -, rfl⟩ := hx
    by_cases hbid : b.id = id
    · simp [startAgent, succeedAgent, hbid]
    · simp only [startAgent, succeedAgent, if_neg hbid] at hxid
      exact absurd hxid hbid
  refine ⟨?_, ?_, hstore⟩
  · unfold runGeminiAgent at hok
    cases hrem : remote (geminiRequest a.prompt a.model a.maxTokens
        (resolveContext a.contextType s.doc1 s.doc2)) with
    | error e => rw [hrem] at hok; simp at hok
    | ok t =>
      rw [hrem] at hok
      cases t with
      | none =>
        simp only [Except.ok.injEq] at hok
        rw [← hok]
        decide
      | some str =>
        simp only [Except.ok.injEq] at hok
        rw [← hok]
        by_cases hs : str = "" <;> simp [hs]
  · intro hcase
    unfold runGeminiAgent at hok
    rcases hcase with hrem | hrem <;> rw [hrem] at hok <;>
      simpa using hok.symm

/-- Witness for C10 on the concrete workspace `stateABC` with a remote
that succeeds with an empty `text`. -/
theorem success_output_nonempty_witness :
    stateABC.agents.find? (fun x => x.id = 1) = some agentA ∧
    runGeminiAgent remoteEmpty agentA.prompt agentA.model agentA.maxTokens
      (resolveContext agentA.contextType stateABC.doc1 stateABC.doc2) =
      .ok "No output generated." ∧
    "No output generated." ≠ "" := by
  have h := success_output_nonempty remoteEmpty stateABC 1 agentA
    "No output generated." rfl rfl
  exact ⟨rfl, rfl, h.1⟩

end FlorAI
